import Mathlib

/-!
Verification development for the embedded chat tool-calling engine of
`src/utils/chat_script.py` (the `CHAT_SCRIPT_CONTENT` program).

The Python program is shallowly embedded:
* JSON values (`JVal`) model the Python dicts used as result envelopes;
* POSIX/pathlib path arithmetic (`PyPath`, `pathJoin`, `resolveAux`) models
  `WORKSPACE / filepath` followed by kernel-level resolution of `..` segments;
* an explicit filesystem state (`FS`) models the workspace directory tree;
* child-process execution is an oracle `List String → ProcOutcome` giving the
  outcome `subprocess.run` would produce for an argv;
* the model-provider call is an oracle list of `CallResult`s consumed one per
  iteration of the inner `while True` loop of `main`.

All definitions are computable and structurally recursive so concrete runs
evaluate by `decide` / `rfl`.
-/

namespace ChatScript

/-- JSON values, as produced by the Python executors (dicts, lists, strings,
ints, bools, None). -/
inductive JVal where
  | null
  | bool (b : Bool)
  | num (n : Int)
  | str (s : String)
  | arr (xs : List JVal)
  | obj (kvs : List (String × JVal))

/-- Field lookup in a JSON object (`d["k"]` on a dict; `none` elsewhere). -/
def getField (v : JVal) (k : String) : Option JVal :=
  match v with
  | .obj kvs => kvs.lookup k
  | _ => none

/-- The `success` field of an envelope, when it is a boolean. -/
def getSuccess (v : JVal) : Option Bool :=
  match getField v "success" with
  | some (.bool b) => some b
  | _ => none

/-- JSON string escaping for the characters `json.dumps` always escapes in
the payloads this program builds. -/
def escChar (c : Char) : String :=
  if c = '"' then "\\\""
  else if c = '\\' then "\\\\"
  else if c = '\n' then "\\n"
  else if c = '\r' then "\\r"
  else if c = '\t' then "\\t"
  else String.singleton c

/-- Escape every character of a string for JSON serialization. -/
def escString (s : String) : String := String.join (s.data.map escChar)

mutual
/-- `json.dumps(v, ensure_ascii=False)`: serialize a JSON value. -/
def dumps : JVal → String
  | .null => "null"
  | .bool b => cond b "true" "false"
  | .num n => toString n
  | .str s => "\"" ++ escString s ++ "\""
  | .arr xs => "[" ++ dumpsArr xs ++ "]"
  | .obj kvs => "\x7b" ++ dumpsObj kvs ++ "\x7d"

/-- Serialize the elements of a JSON array, comma separated. -/
def dumpsArr : List JVal → String
  | [] => ""
  | [x] => dumps x
  | x :: y :: rest => dumps x ++ ", " ++ dumpsArr (y :: rest)

/-- Serialize the key/value pairs of a JSON object, comma separated. -/
def dumpsObj : List (String × JVal) → String
  | [] => ""
  | [kv] => "\"" ++ escString kv.1 ++ "\": " ++ dumps kv.2
  | kv :: kv2 :: rest =>
      "\"" ++ escString kv.1 ++ "\": " ++ dumps kv.2 ++ ", " ++ dumpsObj (kv2 :: rest)
end

/-- A `pathlib.PurePosixPath`: an absolute flag plus the retained segments
(`.` and empty segments are dropped at parse time, `..` is retained). -/
structure PyPath where
  absolute : Bool
  segments : List String
deriving Repr, DecidableEq

/-- Split a character list on `/`, accumulating the current segment. -/
def splitSlashAux (acc : List Char) : List Char → List String
  | [] => [⟨acc.reverse⟩]
  | c :: rest =>
      if c = '/' then ⟨acc.reverse⟩ :: splitSlashAux [] rest
      else splitSlashAux (c :: acc) rest

/-- Parse a path string the way `PurePosixPath` does: leading `/` marks an
absolute path; empty and `.` segments are dropped; `..` is kept. -/
def parsePath (s : String) : PyPath :=
  let pieces := splitSlashAux [] s.data
  { absolute := match s.data with
      | '/' :: _ => true
      | _ => false
    segments := pieces.filter (fun t => t ≠ "" && t ≠ ".") }

/-- `pathlib` joining (`base / q`): an absolute right operand replaces the
base entirely; otherwise segments are concatenated with no canonicalization. -/
def pathJoin (base q : PyPath) : PyPath :=
  if q.absolute then q else ⟨base.absolute, base.segments ++ q.segments⟩

/-- The sandbox root `Path("/workspace")`. -/
def WORKSPACE : PyPath := ⟨true, ["workspace"]⟩

/-- Render a `PyPath` back to a string (`str(path)`). -/
def pathStr (p : PyPath) : String :=
  (if p.absolute then "/" else "") ++ String.intercalate "/" p.segments

/-- Kernel-level resolution of `..` segments of an absolute path: `..` pops
the last resolved segment and is a no-op at the root, other segments push. -/
def resolveAux (acc : List String) : List String → List String
  | [] => acc.reverse
  | seg :: rest =>
      if seg = ".." then resolveAux (acc.drop 1) rest
      else resolveAux (seg :: acc) rest

/-- The absolute path the operating system actually operates on when an
executor touches `WORKSPACE / filepath`: join then resolve `..` segments. -/
def resolveUnder (filepath : String) : List String :=
  resolveAux [] (pathJoin WORKSPACE (parsePath filepath)).segments

/-- Whether a resolved absolute path lies inside the workspace root. -/
def inWorkspace (p : List String) : Bool :=
  List.isPrefixOf ["workspace"] p

/-- All prefixes of a segment list, shortest first (the chain of directories
`mkdir(parents=True)` walks). -/
def prefixesOf : List String → List (List String)
  | [] => [[]]
  | s :: rest => [] :: (prefixesOf rest).map (fun q => s :: q)

/-- Universal-newline translation performed by `read_text()` (mode `r`,
`newline=None`): `\r\n` and lone `\r` both become `\n`. -/
def univNewlinesAux : List Char → List Char
  | [] => []
  | '\r' :: '\n' :: rest => '\n' :: univNewlinesAux rest
  | '\r' :: rest => '\n' :: univNewlinesAux rest
  | c :: rest => c :: univNewlinesAux rest

/-- Universal-newline translation on strings. -/
def univNewlines (s : String) : String := ⟨univNewlinesAux s.data⟩

/-- Whether a string contains a carriage return. -/
def hasCR (s : String) : Bool := s.data.contains '\r'

/-- UTF-8 byte length of a string (what "byte length" means for a text file
written with `encoding="utf-8"`). -/
def utf8Len (s : String) : Nat := s.data.foldl (fun n c => n + c.utf8Size) 0

/-- The workspace filesystem: text files keyed by resolved absolute path
(segment lists), plus the set of existing directories. -/
structure FS where
  files : List (List String × String)
  dirs : List (List String)
deriving Repr, DecidableEq

/-- The filesystem the script starts from: `/` and `/workspace` exist
(`WORKSPACE.mkdir(exist_ok=True)` at import time), no files. -/
def fs0 : FS := ⟨[], [[], ["workspace"]]⟩

/-- Whether a regular file exists at a resolved path. -/
def FS.isFile (fs : FS) (p : List String) : Bool :=
  (fs.files.lookup p).isSome

/-- Whether a directory exists at a resolved path. -/
def FS.isDir (fs : FS) (p : List String) : Bool :=
  fs.dirs.contains p

/-- Write (create or overwrite) the file at a resolved path. -/
def FS.setFile (fs : FS) (p : List String) (content : String) : FS :=
  ⟨(p, content) :: fs.files.filter (fun e => e.1 ≠ p), fs.dirs⟩

/-- `path.mkdir(parents=True, exist_ok=True)`: fails when any prefix of the
path already exists as a regular file, otherwise creates every missing
directory on the chain. -/
def FS.mkdirParents (fs : FS) (p : List String) : Except String FS :=
  if (prefixesOf p).any fs.isFile then
    .error "FileExistsError: file in the way of mkdir"
  else
    .ok ⟨fs.files, fs.dirs ++ (prefixesOf p).filter (fun q => !fs.dirs.contains q)⟩

/-- Remove the file or directory tree rooted at a resolved path. -/
def FS.removePath (fs : FS) (p : List String) : FS :=
  ⟨fs.files.filter (fun e => !List.isPrefixOf p e.1),
   fs.dirs.filter (fun d => !List.isPrefixOf p d)⟩

/-- Insert a string into a sorted list of strings. -/
def insertStr (s : String) : List String → List String
  | [] => [s]
  | t :: rest => if s ≤ t then s :: t :: rest else t :: insertStr s rest

/-- Insertion sort on strings (the `sorted(...)` of `list_files`). -/
def sortStrs : List String → List String
  | [] => []
  | s :: rest => insertStr s (sortStrs rest)

/-- Drop duplicates, keeping the first occurrence. -/
def dedupStrs : List String → List String
  | [] => []
  | s :: rest => s :: (dedupStrs rest).filter (fun t => t ≠ s)

/-- The name of `q` when `q` is an immediate child of directory `p`. -/
def childNameOf (p q : List String) : Option String :=
  if q.length = p.length + 1 && List.isPrefixOf p q then q.getLast? else none

/-- Names of the immediate children of directory `p`, sorted
(`sorted(full_path.iterdir())` orders by name within one directory). -/
def childNames (fs : FS) (p : List String) : List String :=
  sortStrs (dedupStrs
    (fs.dirs.filterMap (childNameOf p) ++
     fs.files.filterMap (fun e => childNameOf p e.1)))

/-- Byte size of the file at a resolved path (`item.stat().st_size`). -/
def fileSize (fs : FS) (p : List String) : Nat :=
  match fs.files.lookup p with
  | some s => utf8Len s
  | none => 0

/-- One entry of the `items` list of `list_files`. -/
def itemJson (fs : FS) (p : List String) (n : String) : JVal :=
  .obj [("name", .str n),
        ("path", .str (String.intercalate "/" ((p ++ [n]).drop 1))),
        ("type", .str (if fs.isDir (p ++ [n]) then "directory" else "file")),
        ("size", if fs.isDir (p ++ [n]) then .null
                 else .num (fileSize fs (p ++ [n])))]

/-- `create_file(filepath, content)`: resolve `WORKSPACE / filepath`, make
parent directories, write the text; success carries `message` and the
unresolved joined path, any raised error becomes a failure envelope. -/
def create_file (fs : FS) (filepath content : String) : FS × JVal :=
  let lex := pathJoin WORKSPACE (parsePath filepath)
  let p := resolveAux [] lex.segments
  match fs.mkdirParents p.dropLast with
  | .error e => (fs, .obj [("success", .bool false), ("error", .str e)])
  | .ok fs1 =>
      if fs1.isDir p then
        (fs1, .obj [("success", .bool false),
                    ("error", .str ("IsADirectoryError: " ++ pathStr lex))])
      else
        (fs1.setFile p content,
         .obj [("success", .bool true),
               ("message", .str ("File created: " ++ filepath)),
               ("path", .str (pathStr lex))])

/-- `read_file(filepath)`: `read_text` with universal-newline translation;
`size` is `len(content)`, the character count of the decoded text. -/
def read_file (fs : FS) (filepath : String) : JVal :=
  let p := resolveUnder filepath
  match fs.files.lookup p with
  | some stored =>
      let content := univNewlines stored
      .obj [("success", .bool true), ("content", .str content),
            ("size", .num (content.length : Int))]
  | none =>
      .obj [("success", .bool false),
            ("error", .str (if fs.isDir p then
                "IsADirectoryError: " ++ pathStr ⟨true, p⟩
              else
                "FileNotFoundError: " ++ pathStr ⟨true, p⟩))]

/-- `list_files(dirpath=".")`: list immediate children sorted by name; any
child outside the workspace root makes `relative_to(WORKSPACE)` raise, which
the handler converts into a failure envelope. -/
def list_files (fs : FS) (dirpath : String) : JVal :=
  let p := resolveUnder dirpath
  if fs.isDir p then
    let names := childNames fs p
    if names.all (fun n => inWorkspace (p ++ [n])) then
      .obj [("success", .bool true),
            ("items", .arr (names.map (itemJson fs p))),
            ("count", .num (names.length : Int))]
    else
      .obj [("success", .bool false),
            ("error", .str ("ValueError: path is not relative to /workspace"))]
  else
    .obj [("success", .bool false),
          ("error", .str (if fs.isFile p then
              "NotADirectoryError: " ++ pathStr ⟨true, p⟩
            else
              "FileNotFoundError: " ++ pathStr ⟨true, p⟩))]

/-- `delete_file(filepath)`: unlink a file, recursively remove a directory,
or report `Path does not exist`. -/
def delete_file (fs : FS) (filepath : String) : FS × JVal :=
  let p := resolveUnder filepath
  if fs.isFile p then
    (fs.removePath p,
     (.obj [("success", .bool true),
            ("message", .str ("File deleted: " ++ filepath))] : JVal))
  else if fs.isDir p then
    (fs.removePath p,
     (.obj [("success", .bool true),
            ("message", .str ("Directory deleted: " ++ filepath))] : JVal))
  else
    (fs, (.obj [("success", .bool false),
                ("error", .str "Path does not exist")] : JVal))

/-- What the `subprocess.run` call produced: a completed process, a
`TimeoutExpired` after the 30 second limit, or some other raised exception
with its message. -/
inductive ProcOutcome where
  | completed (returncode : Int) (stdout stderr : String)
  | timedOut
  | failed (msg : String)
deriving Repr, DecidableEq

/-- The entire external process-execution boundary: outcome of
`subprocess.run(argv, capture_output=True, text=True, timeout=30,
cwd="/workspace")` as a function of the argv. -/
def ProcOracle := List String → ProcOutcome

/-- The envelope of the dedicated `TimeoutExpired` branch of both
`execute_python` and `execute_bash`. -/
def timeoutEnvelope : JVal :=
  .obj [("success", .bool false),
        ("error", .str "Execution timed out (30s limit)")]

/-- `execute_python(code)`: run `python3 -c code`; success is exit code 0,
the envelope carries stdout, stderr and the return code; `TimeoutExpired`
and other exceptions become failure envelopes. -/
def execute_python (po : ProcOracle) (code : String) : JVal :=
  match po ["python3", "-c", code] with
  | .completed rc out err =>
      .obj [("success", .bool (rc == 0)), ("stdout", .str out),
            ("stderr", .str err), ("returncode", .num rc)]
  | .timedOut => timeoutEnvelope
  | .failed m => .obj [("success", .bool false), ("error", .str m)]

/-- `execute_bash(command)`: run `bash -c command`; same envelope logic as
`execute_python`. -/
def execute_bash (po : ProcOracle) (command : String) : JVal :=
  match po ["bash", "-c", command] with
  | .completed rc out err =>
      .obj [("success", .bool (rc == 0)), ("stdout", .str out),
            ("stderr", .str err), ("returncode", .num rc)]
  | .timedOut => timeoutEnvelope
  | .failed m => .obj [("success", .bool false), ("error", .str m)]

/-- The model-supplied argument payload of a tool call, as seen through
`json.loads`: either a string that fails to parse (or parses to a non-dict),
on which `json.loads` / `**` raises, or a parsed JSON object. The parsed
dict has distinct keys; this program's schemas declare only string-valued
parameters, so values are modelled as strings. -/
inductive Payload where
  | malformed (raw : String)
  | obj (kvs : List (String × String))
deriving Repr, DecidableEq

/-- One tool call of an assistant response: call id, capability name, raw
argument payload. -/
structure ToolCall where
  id : String
  name : String
  arguments : Payload
deriving Repr, DecidableEq

/-- A transcript message as appended by `main`: role, text content, tool
calls (assistant messages only) and the answered call id (tool messages
only). -/
structure Message where
  role : String
  content : Option String
  tool_calls : List ToolCall := []
  tool_call_id : Option String := none
deriving Repr, DecidableEq

/-- The six keys of `FUNCTION_MAP`, in declaration order. -/
def FUNCTION_NAMES : List String :=
  ["create_file", "read_file", "list_files", "execute_python",
   "execute_bash", "delete_file"]

/-- Whether two key lists contain the same keys (order-insensitive; the
parsed dicts have distinct keys). -/
def sameKeys (keys req : List String) : Bool :=
  keys.length == req.length && req.all (fun k => keys.contains k) &&
    keys.all (fun k => req.contains k)

/-- Fetch a named argument from the parsed payload. -/
def getArg (kvs : List (String × String)) (k : String) : String :=
  (kvs.lookup k).getD ""

/-- Whether keyword binding `FUNCTION_MAP[name](**kvs)` succeeds for a
registered name: the keys must be exactly the declared parameters
(`list_files` also accepts no arguments, `dirpath` having a default). -/
def argKeysOk (name : String) (keys : List String) : Bool :=
  match name with
  | "create_file" => sameKeys keys ["filepath", "content"]
  | "read_file" => sameKeys keys ["filepath"]
  | "list_files" => sameKeys keys ["dirpath"] || sameKeys keys []
  | "execute_python" => sameKeys keys ["code"]
  | "execute_bash" => sameKeys keys ["command"]
  | "delete_file" => sameKeys keys ["filepath"]
  | _ => false

/-- `FUNCTION_MAP[name](**kvs)`: `none` models the `TypeError` raised when
the keyword arguments do not bind; otherwise the executor runs and returns
the updated filesystem and its envelope. -/
def callFunc (po : ProcOracle) (fs : FS) (name : String)
    (kvs : List (String × String)) : Option (FS × JVal) :=
  match name with
  | "create_file" =>
      if sameKeys (kvs.map (·.1)) ["filepath", "content"] then
        some (create_file fs (getArg kvs "filepath") (getArg kvs "content"))
      else none
  | "read_file" =>
      if sameKeys (kvs.map (·.1)) ["filepath"] then
        some (fs, read_file fs (getArg kvs "filepath"))
      else none
  | "list_files" =>
      if sameKeys (kvs.map (·.1)) ["dirpath"] then
        some (fs, list_files fs (getArg kvs "dirpath"))
      else if sameKeys (kvs.map (·.1)) [] then
        some (fs, list_files fs ".")
      else none
  | "execute_python" =>
      if sameKeys (kvs.map (·.1)) ["code"] then
        some (fs, execute_python po (getArg kvs "code"))
      else none
  | "execute_bash" =>
      if sameKeys (kvs.map (·.1)) ["command"] then
        some (fs, execute_bash po (getArg kvs "command"))
      else none
  | "delete_file" =>
      if sameKeys (kvs.map (·.1)) ["filepath"] then
        some (delete_file fs (getArg kvs "filepath"))
      else none
  | _ => none

/-- `execute_tool_call(tool_call)`: `json.loads` the arguments (raising on a
malformed payload — note this happens before the name is checked), then
dispatch through `FUNCTION_MAP`, returning the failure envelope
`Unknown function: <name>` for unregistered names. A `.error` is an
exception propagating out of the dispatcher; `.ok` carries the envelope the
source serializes with `json.dumps`. -/
def execute_tool_call (po : ProcOracle) (fs : FS) (tc : ToolCall) :
    Except String (FS × JVal) :=
  match tc.arguments with
  | .malformed raw => .error ("json.loads: invalid payload: " ++ raw)
  | .obj kvs =>
      if FUNCTION_NAMES.contains tc.name then
        match callFunc po fs tc.name kvs with
        | some r => .ok r
        | none => .error ("TypeError: bad keyword arguments for " ++ tc.name)
      else
        .ok (fs, .obj [("success", .bool false),
                       ("error", .str ("Unknown function: " ++ tc.name))])

/-- Whether a tool call goes through dispatch without raising: its payload
parses as a JSON object, and for a registered name the keys bind. -/
def wfCall (tc : ToolCall) : Bool :=
  match tc.arguments with
  | .malformed _ => false
  | .obj kvs =>
      !FUNCTION_NAMES.contains tc.name || argKeysOk tc.name (kvs.map (·.1))

/-- The tool message appended for one dispatched call: role `tool`, the
serialized envelope as content, keyed by the call id. -/
def toolMsg (id : String) (v : JVal) : Message :=
  ⟨"tool", some (dumps v), [], some id⟩

/-- The `for tool_call in assistant_message.tool_calls` loop of `main`:
execute each call in emitted order and append its tool message. The `Bool`
is `false` when a call raised (the `json.loads` at the logging line or the
keyword binding), which aborts the remaining calls of the turn. -/
def dispatchCalls (po : ProcOracle) :
    FS → List Message → List ToolCall → FS × List Message × Bool
  | fs, msgs, [] => (fs, msgs, true)
  | fs, msgs, tc :: rest =>
      match execute_tool_call po fs tc with
      | .error _ => (fs, msgs, false)
      | .ok (fs2, v) => dispatchCalls po fs2 (msgs ++ [toolMsg tc.id v]) rest

/-- What one provider call returned: the assistant message (content plus
tool-call list; an empty list is the falsy `tool_calls` branch). -/
structure ModelMsg where
  content : Option String
  tool_calls : List ToolCall
deriving Repr, DecidableEq

/-- Outcome of one `client.chat.completions.create` call: a response, or a
raised provider/network error. -/
inductive CallResult where
  | ok (m : ModelMsg)
  | err (msg : String)
deriving Repr, DecidableEq

/-- How the inner `while True` loop of a user turn ended. -/
inductive TurnEnd where
  | answered
  | errored
  | exhausted
deriving Repr, DecidableEq

/-- `messages[-1]["role"] == "user"`. -/
def lastRoleIsUser (msgs : List Message) : Bool :=
  match msgs.getLast? with
  | some m => m.role == "user"
  | none => false

/-- The rollback of the exception handler: pop the last message if and only
if it is a user message. -/
def popIfUser (msgs : List Message) : List Message :=
  if lastRoleIsUser msgs then msgs.dropLast else msgs

/-- The assistant message appended when the response contains tool calls. -/
def assistantToolMsg (m : ModelMsg) : Message :=
  ⟨"assistant", m.content, m.tool_calls, none⟩

/-- The inner `while True` loop of `main` for one user turn, consuming one
provider `CallResult` per iteration: a raised provider error hits the
handler (rollback-if-user, break); a response with tool calls appends the
assistant message, dispatches all calls (a raising call also ends in the
handler) and loops; a response without tool calls appends the final
assistant text and breaks. -/
def innerLoop (po : ProcOracle) :
    List CallResult → List Message → FS → List Message × FS × TurnEnd
  | [], msgs, fs => (msgs, fs, .exhausted)
  | .err _ :: _, msgs, fs => (popIfUser msgs, fs, .errored)
  | .ok m :: rest, msgs, fs =>
      if m.tool_calls.isEmpty then
        (msgs ++ [⟨"assistant", some (m.content.getD ""), [], none⟩], fs,
         .answered)
      else
        match dispatchCalls po fs (msgs ++ [assistantToolMsg m])
            m.tool_calls with
        | (fs2, msgs2, true) => innerLoop po rest msgs2 fs2
        | (fs2, msgs2, false) => (popIfUser msgs2, fs2, .errored)

/-- The user message appended for a non-empty input. -/
def mkUserMsg (s : String) : Message := ⟨"user", some s, [], none⟩

/-- One user turn of the outer loop for a non-empty, non-exit input: append
the user message, then run the inner loop. -/
def processTurn (po : ProcOracle) (responses : List CallResult)
    (msgs : List Message) (fs : FS) (input : String) :
    List Message × FS × TurnEnd :=
  innerLoop po responses (msgs ++ [mkUserMsg input]) fs

/-- An apostrophe, kept out of string literals. -/
def apos : String := String.singleton (Char.ofNat 39)

/-- The system prompt seeded into the transcript at session start. -/
def systemPrompt : String :=
  "You are a helpful AI assistant with access to file creation and code " ++
  "execution tools inside a Docker container.\n\nYou can:\n" ++
  "- Create, read, and delete files (Python, text, shell scripts, etc.)\n" ++
  "- Execute Python code and bash commands\n- List files and directories\n" ++
  "- Help users build and test projects\n\n" ++
  "All file operations are relative to /workspace directory.\n" ++
  "When creating files, always use clear, well-commented code.\n" ++
  "When executing code, explain what you" ++ apos ++
  "re doing and show the results."

/-- The single system message appended before the loop starts. -/
def systemMessage : Message := ⟨"system", some systemPrompt, [], none⟩

/-- The transcript right after seeding. -/
def initialMessages : List Message := [systemMessage]

/-- The outer `while True` loop over user inputs, each paired with the
provider responses its turn consumes: exit keywords terminate, empty input
is skipped, anything else is processed as a turn. -/
def runTurns (po : ProcOracle) :
    List (String × List CallResult) → List Message → FS →
      List Message × FS
  | [], msgs, fs => (msgs, fs)
  | (input, rs) :: rest, msgs, fs =>
      let s := input.trim
      if s.toLower == "exit" || s.toLower == "quit" then (msgs, fs)
      else if s == "" then runTurns po rest msgs fs
      else
        let r := processTurn po rs msgs fs s
        runTurns po rest r.1 r.2.1

/-- A whole session from the seeded transcript and fresh workspace. -/
def runSession (po : ProcOracle)
    (turns : List (String × List CallResult)) : List Message × FS :=
  runTurns po turns initialMessages fs0

/-- A process oracle for concrete runs: every child process exits 0. -/
def defaultOracle : ProcOracle := fun _ => .completed 0 "" ""

/-- The envelope shape every dispatched result actually has: a boolean
`success` field, and on failure either an `error` description or the
captured `returncode` (with stdout/stderr) of a non-zero exit. -/
def envelopeOk (v : JVal) : Bool :=
  match getField v "success" with
  | some (.bool true) => true
  | some (.bool false) =>
      (getField v "error").isSome || (getField v "returncode").isSome
  | _ => false

/-- A process oracle where one python command and one bash command sleep
past the 30 second limit and everything else exits 0. -/
def timeoutOracle : ProcOracle := fun argv =>
  if argv = ["python3", "-c", "import time; time.sleep(60)"] ∨
     argv = ["bash", "-c", "sleep 60"] then
    .timedOut
  else .completed 0 "" ""

/-- A process oracle where `print(1)` succeeds and one bash command exits 2
with captured stderr. -/
def completedOracle : ProcOracle := fun argv =>
  if argv = ["python3", "-c", "print(1)"] then .completed 0 "1\n" ""
  else if argv = ["bash", "-c", "ls /nope"] then
    .completed 2 "" "ls: cannot access /nope: No such file or directory\n"
  else .completed 0 "" ""

/-- A workspace holding one non-ASCII file, produced by the code itself. -/
def fsDemo : FS := (create_file fs0 "u2.txt" "héllo").1

/-- The transcript invariant behind C10: the seeded system message is the
head and no other message has role `system`. -/
def InvT (msgs : List Message) : Prop :=
  msgs.head? = some systemMessage ∧ ∀ m ∈ msgs.tail, m.role ≠ "system"

/-- Universal-newline translation is the identity on character lists free of
carriage returns. -/
theorem univNewlinesAux_noCR (l : List Char) (h : l.contains '\r' = false) :
    univNewlinesAux l = l := by
  induction l with
  | nil => rfl
  | cons c rest ih =>
      simp only [List.contains_cons, Bool.or_eq_false_iff, beq_eq_false_iff_ne,
        ne_eq] at h
      rw [univNewlinesAux.eq_def]
      split
      · rename_i heq
        cases heq
      · rename_i rest2 heq
        injection heq with h1 _
        exact absurd h1.symm h.1
      · rename_i rest2 heq
        injection heq with h1 _
        exact absurd h1.symm h.1
      · rename_i c2 rest2 heq
        injection heq with h1 h2
        subst h1
        subst h2
        exact congrArg (c :: ·) (ih h.2)

/-- Universal-newline translation is the identity on strings without `\r`. -/
theorem univNewlines_noCR (s : String) (h : hasCR s = false) :
    univNewlines s = s := by
  unfold univNewlines
  rw [univNewlinesAux_noCR s.data h]

/-- Reading back the path just written finds the written content. -/
theorem lookup_setFile (fs : FS) (p : List String) (c : String) :
    (fs.setFile p c).files.lookup p = some c := by
  simp [FS.setFile, List.lookup]

/-- When `create_file` reports success, `read_file` at the same path returns
a success envelope whose content is the written string after
universal-newline translation and whose size is its character count. -/
theorem create_then_read (fs : FS) (filepath c : String)
    (h : getSuccess (create_file fs filepath c).2 = some true) :
    read_file (create_file fs filepath c).1 filepath =
      .obj [("success", .bool true), ("content", .str (univNewlines c)),
            ("size", .num ((univNewlines c).length : Int))] := by
  cases hm : fs.mkdirParents
      ((resolveAux [] (pathJoin WORKSPACE (parsePath filepath)).segments).dropLast) with
  | error e => simp [create_file, hm, getSuccess, getField, List.lookup] at h
  | ok fs1 =>
      by_cases hd :
          fs1.isDir (resolveAux [] (pathJoin WORKSPACE (parsePath filepath)).segments)
      · simp [create_file, hm, hd, getSuccess, getField, List.lookup] at h
      · simp [create_file, hm, hd, read_file, resolveUnder, lookup_setFile]

/-- Every `create_file` envelope has the dispatched-result shape. -/
theorem envelopeOk_create (fs : FS) (f c : String) :
    envelopeOk (create_file fs f c).2 = true := by
  simp only [create_file]
  split
  · rfl
  · split <;> rfl

/-- Every `read_file` envelope has the dispatched-result shape. -/
theorem envelopeOk_read (fs : FS) (f : String) :
    envelopeOk (read_file fs f) = true := by
  simp only [read_file]
  split <;> rfl

/-- Every `list_files` envelope has the dispatched-result shape. -/
theorem envelopeOk_list (fs : FS) (d : String) :
    envelopeOk (list_files fs d) = true := by
  simp only [list_files]
  split
  · split <;> rfl
  · rfl

/-- Every `delete_file` envelope has the dispatched-result shape. -/
theorem envelopeOk_delete (fs : FS) (f : String) :
    envelopeOk (delete_file fs f).2 = true := by
  simp only [delete_file]
  split
  · rfl
  · split <;> rfl

/-- Every `execute_python` envelope has the dispatched-result shape. -/
theorem envelopeOk_python (po : ProcOracle) (code : String) :
    envelopeOk (execute_python po code) = true := by
  unfold execute_python
  split
  · rename_i rc out err heq
    cases h : rc == 0 <;> simp +decide [envelopeOk, getField, List.lookup, h]
  · rfl
  · rfl

/-- Every `execute_bash` envelope has the dispatched-result shape. -/
theorem envelopeOk_bash (po : ProcOracle) (cmd : String) :
    envelopeOk (execute_bash po cmd) = true := by
  unfold execute_bash
  split
  · rename_i rc out err heq
    cases h : rc == 0 <;> simp +decide [envelopeOk, getField, List.lookup, h]
  · rfl
  · rfl

/-- When the keyword arguments bind, `FUNCTION_MAP[name](**kvs)` runs the
executor and yields a well-shaped envelope. -/
theorem callFunc_ok (po : ProcOracle) (fs : FS) (name : String)
    (kvs : List (String × String))
    (hc : FUNCTION_NAMES.contains name = true)
    (h : argKeysOk name (kvs.map (·.1)) = true) :
    ∃ r, callFunc po fs name kvs = some r ∧ envelopeOk r.2 = true := by
  simp [FUNCTION_NAMES] at hc
  rcases hc with h1 | h1 | h1 | h1 | h1 | h1 <;> subst h1 <;>
    simp only [argKeysOk] at h
  · exact ⟨create_file fs (getArg kvs "filepath") (getArg kvs "content"),
      by simp [callFunc, h], envelopeOk_create fs _ _⟩
  · exact ⟨(fs, read_file fs (getArg kvs "filepath")),
      by simp [callFunc, h], envelopeOk_read fs _⟩
  · cases hfirst : sameKeys (kvs.map (·.1)) ["dirpath"] with
    | true => exact ⟨(fs, list_files fs (getArg kvs "dirpath")),
        by simp [callFunc, hfirst], envelopeOk_list fs _⟩
    | false =>
        rw [hfirst] at h
        simp at h
        exact ⟨(fs, list_files fs "."),
          by simp [callFunc, hfirst, h], envelopeOk_list fs _⟩
  · exact ⟨(fs, execute_python po (getArg kvs "code")),
      by simp [callFunc, h], envelopeOk_python po _⟩
  · exact ⟨(fs, execute_bash po (getArg kvs "command")),
      by simp [callFunc, h], envelopeOk_bash po _⟩
  · exact ⟨delete_file fs (getArg kvs "filepath"),
      by simp [callFunc, h], envelopeOk_delete fs _⟩

/-- A well-formed tool call never raises out of `execute_tool_call` and its
envelope is well shaped. -/
theorem exec_ok (po : ProcOracle) (fs : FS) (tc : ToolCall)
    (h : wfCall tc = true) :
    ∃ r, execute_tool_call po fs tc = .ok r ∧ envelopeOk r.2 = true := by
  unfold wfCall at h
  cases ha : tc.arguments with
  | malformed raw =>
      rw [ha] at h
      simp at h
  | obj kvs =>
      rw [ha] at h
      cases hc : FUNCTION_NAMES.contains tc.name with
      | false =>
          refine ⟨(fs, .obj [("success", .bool false),
            ("error", .str ("Unknown function: " ++ tc.name))]), ?_, rfl⟩
          simp only [execute_tool_call, ha]
          rw [hc]
          simp
      | true =>
          rw [hc] at h
          simp at h
          obtain ⟨r, hr, he⟩ := callFunc_ok po fs tc.name kvs hc h
          refine ⟨r, ?_, he⟩
          simp only [execute_tool_call, ha]
          rw [hc]
          simp [hr]

/-- When every call of a batch is well formed, the dispatch loop completes,
appending one tool message per call, in order, keyed by the call ids. -/
theorem dispatchCalls_wf (po : ProcOracle) :
    ∀ (tcs : List ToolCall) (fs : FS) (msgs : List Message),
      tcs.all wfCall = true →
      ∃ fs2 tms, dispatchCalls po fs msgs tcs = (fs2, msgs ++ tms, true) ∧
        tms.length = tcs.length ∧
        tms.map Message.tool_call_id = tcs.map (fun tc => some tc.id) ∧
        ∀ m ∈ tms, m.role = "tool" := by
  intro tcs
  induction tcs with
  | nil =>
      intro fs msgs _
      exact ⟨fs, [], by simp [dispatchCalls], rfl, rfl, by simp⟩
  | cons tc rest ih =>
      intro fs msgs hall
      simp only [List.all_cons, Bool.and_eq_true] at hall
      obtain ⟨r, hr, _⟩ := exec_ok po fs tc hall.1
      obtain ⟨fs2, tms, hd, hlen, hids, hroles⟩ :=
        ih r.1 (msgs ++ [toolMsg tc.id r.2]) hall.2
      refine ⟨fs2, toolMsg tc.id r.2 :: tms, ?_, ?_, ?_, ?_⟩
      · simp [dispatchCalls, hr, hd]
      · simp [hlen]
      · simp [hids, toolMsg]
      · intro m hm
        rcases List.mem_cons.mp hm with h | h
        · subst h; rfl
        · exact hroles m h

/-- Whatever happens inside the dispatch loop, the transcript only grows by
messages of role `tool`. -/
theorem dispatchCalls_roles (po : ProcOracle) :
    ∀ (tcs : List ToolCall) (fs : FS) (msgs : List Message),
      ∃ suf, (dispatchCalls po fs msgs tcs).2.1 = msgs ++ suf ∧
        ∀ m ∈ suf, m.role = "tool" := by
  intro tcs
  induction tcs with
  | nil => intro fs msgs; exact ⟨[], by simp [dispatchCalls], by simp⟩
  | cons tc rest ih =>
      intro fs msgs
      cases hr : execute_tool_call po fs tc with
      | error e => exact ⟨[], by simp [dispatchCalls, hr], by simp⟩
      | ok r =>
          obtain ⟨suf, hs, hroles⟩ := ih r.1 (msgs ++ [toolMsg tc.id r.2])
          refine ⟨toolMsg tc.id r.2 :: suf, ?_, ?_⟩
          · simp [dispatchCalls, hr, hs]
          · intro m hm
            rcases List.mem_cons.mp hm with h | h
            · subst h; rfl
            · exact hroles m h

/-- Appending non-system messages preserves the transcript invariant. -/
theorem invT_append (msgs new : List Message) (h : InvT msgs)
    (hnew : ∀ m ∈ new, m.role ≠ "system") : InvT (msgs ++ new) := by
  obtain ⟨hh, ht⟩ := h
  cases msgs with
  | nil => simp at hh
  | cons a t =>
      simp only [List.head?_cons, Option.some.injEq] at hh
      subst hh
      refine ⟨by simp, ?_⟩
      intro m hm
      rcases List.mem_append.mp hm with h | h
      · exact ht m h
      · exact hnew m h

/-- The rollback of the exception handler preserves the transcript
invariant: it can only remove a trailing user message, never the seeded
system message. -/
theorem invT_pop (msgs : List Message) (h : InvT msgs) :
    InvT (popIfUser msgs) := by
  unfold popIfUser
  split
  · obtain ⟨hh, ht⟩ := h
    cases msgs with
    | nil => simp at hh
    | cons a t =>
        simp only [List.head?_cons, Option.some.injEq] at hh
        subst hh
        cases t with
        | nil =>
            rename_i hl
            simp +decide [lastRoleIsUser, systemMessage] at hl
        | cons b t2 =>
            rw [List.dropLast_cons₂]
            refine ⟨by simp, ?_⟩
            intro m hm
            exact ht m (List.mem_of_mem_dropLast hm)
  · exact h

/-- The inner loop preserves the transcript invariant. -/
theorem innerLoop_inv (po : ProcOracle) :
    ∀ (rs : List CallResult) (msgs : List Message) (fs : FS),
      InvT msgs → InvT (innerLoop po rs msgs fs).1 := by
  intro rs
  induction rs with
  | nil => intro msgs fs h; exact h
  | cons r rest ih =>
      intro msgs fs h
      cases r with
      | err e => exact invT_pop _ h
      | ok m =>
          by_cases he : m.tool_calls.isEmpty
          · simp only [innerLoop, he, if_true]
            refine invT_append _ _ h ?_
            intro x hx
            rcases List.mem_singleton.mp hx with h1
            subst h1
            simp
          · have h1 : InvT (msgs ++ [assistantToolMsg m]) := by
              refine invT_append _ _ h ?_
              intro x hx
              rcases List.mem_singleton.mp hx with h1
              subst h1
              simp [assistantToolMsg]
            obtain ⟨suf, hs, hroles⟩ :=
              dispatchCalls_roles po m.tool_calls fs (msgs ++ [assistantToolMsg m])
            have h2 : InvT (dispatchCalls po fs (msgs ++ [assistantToolMsg m])
                m.tool_calls).2.1 := by
              rw [hs]
              refine invT_append _ _ h1 ?_
              intro x hx
              rw [hroles x hx]
              simp
            simp only [innerLoop, he, if_false]
            cases hd : dispatchCalls po fs (msgs ++ [assistantToolMsg m])
                m.tool_calls with
            | mk fs2 p =>
                cases p with
                | mk msgs2 b =>
                    rw [hd] at h2
                    cases b
                    · exact invT_pop _ h2
                    · exact ih msgs2 fs2 h2

/-- The outer loop preserves the transcript invariant. -/
theorem runTurns_inv (po : ProcOracle) :
    ∀ (turns : List (String × List CallResult)) (msgs : List Message)
      (fs : FS), InvT msgs → InvT (runTurns po turns msgs fs).1 := by
  intro turns
  induction turns with
  | nil => intro msgs fs h; exact h
  | cons t rest ih =>
      intro msgs fs h
      cases t with
      | mk input rs =>
          simp only [runTurns]
          split
          · exact h
          · split
            · exact ih msgs fs h
            · refine ih _ _ ?_
              refine innerLoop_inv po rs _ fs ?_
              refine invT_append _ _ h ?_
              intro x hx
              rcases List.mem_singleton.mp hx with h1
              subst h1
              simp [mkUserMsg]

/-- Claim C1 (code_bug evaluation): the executors resolve model-supplied
paths by plain pathlib joining with no containment check, so a
parent-directory argument makes `create_file` write outside the workspace
root, and an absolute argument resolves outside it as well — the claimed
containment invariant does not hold on the code. -/
theorem C1_escape_eval :
    inWorkspace (resolveUnder "../secret.txt") = false ∧
    getSuccess (create_file fs0 "../secret.txt" "boom").2 = some true ∧
    FS.isFile (create_file fs0 "../secret.txt" "boom").1 ["secret.txt"] =
      true ∧
    inWorkspace (resolveUnder "/etc/passwd") = false :=
  ⟨by decide, by decide, by decide, by decide⟩

/-- Claim C2 (counterexample): a provider failure on the second model call
of a turn does not restore the transcript to its pre-turn length — the
user, assistant and tool messages of the turn all remain (length 4, not 1),
though the loop does return to awaiting user input. -/
theorem C2_counterexample :
    ((processTurn defaultOracle
        [CallResult.ok ⟨none, [⟨"cx2", "read_file",
            Payload.obj [("filepath", "x.txt")]⟩]⟩,
         CallResult.err "provider down"]
        initialMessages fs0 "hi").1).length = 4 ∧
    ((processTurn defaultOracle
        [CallResult.ok ⟨none, [⟨"cx2", "read_file",
            Payload.obj [("filepath", "x.txt")]⟩]⟩,
         CallResult.err "provider down"]
        initialMessages fs0 "hi").1).length ≠ initialMessages.length ∧
    (processTurn defaultOracle
        [CallResult.ok ⟨none, [⟨"cx2", "read_file",
            Payload.obj [("filepath", "x.txt")]⟩]⟩,
         CallResult.err "provider down"]
        initialMessages fs0 "hi").2.2 = TurnEnd.errored :=
  ⟨by decide, by decide, by decide⟩

/-- Claim C2 (amended): when the provider call that fails is the first one
of the user turn, the handler pops the just-appended user message and the
transcript is restored exactly, the loop returning to awaiting input. A
failure on a later call of the same turn (see the counterexample) leaves
the messages already appended in place. -/
theorem C2_rollback_first_call (po : ProcOracle) (e : String)
    (rest : List CallResult) (msgs : List Message) (fs : FS)
    (input : String) :
    processTurn po (CallResult.err e :: rest) msgs fs input =
      (msgs, fs, TurnEnd.errored) := by
  simp [processTurn, innerLoop, popIfUser, lastRoleIsUser, mkUserMsg,
    List.getLast?_concat, List.dropLast_concat]

/-- Claim C3 (counterexample): an argument payload that is not a JSON
object raises out of `execute_tool_call` (the `json.loads` call precedes
every other step), and a raising call cancels the remaining invocations of
the same assistant turn — here a following well-formed call produces no
tool message at all. -/
theorem C3_counterexample :
    execute_tool_call defaultOracle fs0
        ⟨"cx3", "read_file", Payload.malformed "not json"⟩ =
      .error ("json.loads: invalid payload: not json") ∧
    (dispatchCalls defaultOracle fs0 []
        [⟨"cx3", "read_file", Payload.malformed "not json"⟩,
         ⟨"cx3b", "read_file", Payload.obj [("filepath", "x.txt")]⟩]).2.1 =
      [] :=
  ⟨rfl, rfl⟩

/-- Claim C3 (amended): for every invocation whose argument payload parses
as a JSON object and, when the capability is registered, whose keys bind to
the executor parameters, dispatch returns (never raises) an envelope with a
boolean success field carrying, when success is false, either an error
description or the captured returncode of a non-zero exit. -/
theorem C3_dispatch_total (po : ProcOracle) (fs : FS) (tc : ToolCall)
    (h : wfCall tc = true) :
    ∃ r, execute_tool_call po fs tc = .ok r ∧ envelopeOk r.2 = true :=
  exec_ok po fs tc h

/-- Claim C3 witness: a concrete well-formed invocation dispatched against
the initial workspace. -/
theorem C3_witness :
    wfCall ⟨"cw3", "execute_python", Payload.obj [("code", "print(1)")]⟩ =
      true ∧
    ∃ r, execute_tool_call defaultOracle fs0
        ⟨"cw3", "execute_python", Payload.obj [("code", "print(1)")]⟩ =
          .ok r ∧
      envelopeOk r.2 = true :=
  ⟨by decide, C3_dispatch_total defaultOracle fs0 _ (by decide)⟩

/-- Claim C4 (counterexample): a tool call with an unknown capability name
does not always return a failure envelope — when its argument payload is
malformed, `json.loads` raises before the name is ever checked, so the
dispatcher raises instead of returning the unknown-function envelope. -/
theorem C4_counterexample :
    execute_tool_call defaultOracle fs0
        ⟨"cx4", "frobnicate", Payload.malformed "oops"⟩ =
      .error ("json.loads: invalid payload: oops") :=
  rfl

/-- Claim C4 (amended): for a tool call whose capability name is not
registered and whose argument payload parses as a JSON object, dispatch
returns a success-false envelope identifying the unknown function, the
filesystem is untouched, and the dispatch loop appends it as an ordinary
tool message and continues with the remaining calls. -/
theorem C4_unknown_capability (po : ProcOracle) (fs : FS)
    (msgs : List Message) (rest : List ToolCall) (tc : ToolCall)
    (kvs : List (String × String))
    (hname : FUNCTION_NAMES.contains tc.name = false)
    (hargs : tc.arguments = Payload.obj kvs) :
    execute_tool_call po fs tc =
      .ok (fs, .obj [("success", .bool false),
        ("error", .str ("Unknown function: " ++ tc.name))]) ∧
    dispatchCalls po fs msgs (tc :: rest) =
      dispatchCalls po fs
        (msgs ++ [toolMsg tc.id (.obj [("success", .bool false),
          ("error", .str ("Unknown function: " ++ tc.name))])]) rest := by
  have h1 : execute_tool_call po fs tc =
      .ok (fs, .obj [("success", .bool false),
        ("error", .str ("Unknown function: " ++ tc.name))]) := by
    simp only [execute_tool_call, hargs]
    rw [hname]
    simp
  exact ⟨h1, by simp [dispatchCalls, h1]⟩

/-- Claim C4 witness: a concrete unknown-name call with a well-formed empty
object payload. -/
theorem C4_witness :
    execute_tool_call defaultOracle fs0
        ⟨"cw4", "make_coffee", Payload.obj []⟩ =
      .ok (fs0, .obj [("success", .bool false),
        ("error", .str ("Unknown function: " ++ "make_coffee"))]) ∧
    dispatchCalls defaultOracle fs0 []
        [⟨"cw4", "make_coffee", Payload.obj []⟩] =
      dispatchCalls defaultOracle fs0
        ([] ++ [toolMsg "cw4" (.obj [("success", .bool false),
          ("error", .str ("Unknown function: " ++ "make_coffee"))])]) [] :=
  C4_unknown_capability defaultOracle fs0 [] []
    ⟨"cw4", "make_coffee", Payload.obj []⟩ [] (by decide) rfl

/-- Claim C5 (counterexample): an assistant message with one tool call
whose payload is malformed appends zero tool messages, not one — the raise
aborts the batch before anything is appended. -/
theorem C5_counterexample :
    ((dispatchCalls defaultOracle fs0 []
        [ToolCall.mk "cx5" "read_file" (Payload.malformed "bad")]).2.1).length
      = 0 ∧
    ((dispatchCalls defaultOracle fs0 []
        [ToolCall.mk "cx5" "read_file" (Payload.malformed "bad")]).2.1).length
      ≠ [ToolCall.mk "cx5" "read_file" (Payload.malformed "bad")].length :=
  ⟨by decide, by decide⟩

/-- Claim C5 (amended): for an assistant response whose tool calls all have
well-formed payloads, the loop appends exactly one tool message per call,
in emitted order, each keyed by the call id it answers, and only then
consumes the next provider response. -/
theorem C5_dispatch_order (po : ProcOracle) (rest : List CallResult)
    (msgs : List Message) (fs : FS) (c : Option String)
    (tcs : List ToolCall) (hne : tcs ≠ [])
    (hwf : tcs.all wfCall = true) :
    ∃ fs2 tms,
      innerLoop po (CallResult.ok ⟨c, tcs⟩ :: rest) msgs fs =
        innerLoop po rest (msgs ++ [assistantToolMsg ⟨c, tcs⟩] ++ tms) fs2 ∧
      tms.length = tcs.length ∧
      tms.map Message.tool_call_id = tcs.map (fun tc => some tc.id) ∧
      ∀ m ∈ tms, m.role = "tool" := by
  obtain ⟨fs2, tms, hd, hlen, hids, hroles⟩ :=
    dispatchCalls_wf po tcs fs (msgs ++ [assistantToolMsg ⟨c, tcs⟩]) hwf
  refine ⟨fs2, tms, ?_, hlen, hids, hroles⟩
  have he : tcs.isEmpty = false := by
    cases tcs with
    | nil => exact absurd rfl hne
    | cons a b => rfl
  simp only [innerLoop, he]
  rw [hd]
  rfl

/-- Claim C5 witness: one well-formed call dispatched from the seeded
transcript. -/
theorem C5_witness :
    ∃ fs2 tms,
      innerLoop defaultOracle
          [CallResult.ok (ModelMsg.mk none
            [ToolCall.mk "cw5" "read_file"
              (Payload.obj [("filepath", "x.txt")])])]
          initialMessages fs0 =
        innerLoop defaultOracle []
          (initialMessages ++
            [assistantToolMsg (ModelMsg.mk none
              [ToolCall.mk "cw5" "read_file"
                (Payload.obj [("filepath", "x.txt")])])] ++ tms) fs2 ∧
      tms.length = [ToolCall.mk "cw5" "read_file"
          (Payload.obj [("filepath", "x.txt")])].length ∧
      tms.map Message.tool_call_id =
        [ToolCall.mk "cw5" "read_file"
          (Payload.obj [("filepath", "x.txt")])].map
          (fun tc => some tc.id) ∧
      ∀ m ∈ tms, m.role = "tool" :=
  C5_dispatch_order defaultOracle [] initialMessages fs0 none
    [ToolCall.mk "cw5" "read_file" (Payload.obj [("filepath", "x.txt")])]
    (by decide) (by decide)

/-- Claim C6: a child process exceeding the 30 second limit yields the
dedicated timeout envelope in both `execute_python` and `execute_bash`,
and for any other failure whose message differs from the fixed timeout
message the resulting generic envelope is distinct from it. -/
theorem C6_timeout_distinguished (po : ProcOracle) (code cmd m : String)
    (hp : po ["python3", "-c", code] = ProcOutcome.timedOut)
    (hb : po ["bash", "-c", cmd] = ProcOutcome.timedOut)
    (hm : m ≠ "Execution timed out (30s limit)") :
    execute_python po code = timeoutEnvelope ∧
    execute_bash po cmd = timeoutEnvelope ∧
    (∀ (po2 : ProcOracle) (code2 : String),
        po2 ["python3", "-c", code2] = ProcOutcome.failed m →
        execute_python po2 code2 ≠ timeoutEnvelope) ∧
    (∀ (po2 : ProcOracle) (cmd2 : String),
        po2 ["bash", "-c", cmd2] = ProcOutcome.failed m →
        execute_bash po2 cmd2 ≠ timeoutEnvelope) := by
  refine ⟨by simp [execute_python, hp], by simp [execute_bash, hb], ?_, ?_⟩
  · intro po2 code2 h2
    simp [execute_python, h2, timeoutEnvelope, hm]
  · intro po2 cmd2 h2
    simp [execute_bash, h2, timeoutEnvelope, hm]

/-- Claim C6 witness: concrete sleeping commands under an oracle that times
them out, with a concrete file-not-found message for the generic side. -/
theorem C6_witness :
    execute_python timeoutOracle "import time; time.sleep(60)" =
      timeoutEnvelope ∧
    execute_bash timeoutOracle "sleep 60" = timeoutEnvelope ∧
    (∀ (po2 : ProcOracle) (code2 : String),
        po2 ["python3", "-c", code2] =
          ProcOutcome.failed "[Errno 2] No such file or directory" →
        execute_python po2 code2 ≠ timeoutEnvelope) ∧
    (∀ (po2 : ProcOracle) (cmd2 : String),
        po2 ["bash", "-c", cmd2] =
          ProcOutcome.failed "[Errno 2] No such file or directory" →
        execute_bash po2 cmd2 ≠ timeoutEnvelope) :=
  C6_timeout_distinguished timeoutOracle "import time; time.sleep(60)"
    "sleep 60" "[Errno 2] No such file or directory"
    (by decide) (by decide) (by decide)

/-- Claim C7 (counterexample): writing a string containing a carriage
return and reading it back does not return the same string — `read_text`
translates the CR to LF, so the round trip is not exact. -/
theorem C7_counterexample :
    getSuccess (create_file fs0 "cr.txt" "A\rB").2 = some true ∧
    getField (read_file (create_file fs0 "cr.txt" "A\rB").1 "cr.txt")
        "content" = some (.str "A\nB") ∧
    ("A\nB" : String) ≠ "A\rB" :=
  ⟨by decide, rfl, by decide⟩

/-- Claim C7 (amended): for content free of carriage returns, a successful
`create_file` followed by `read_file` at the same path returns exactly the
written content (and its character count as size), including when it
overwrites a pre-existing file. -/
theorem C7_roundtrip (fs : FS) (filepath c : String)
    (hcr : hasCR c = false)
    (h : getSuccess (create_file fs filepath c).2 = some true) :
    read_file (create_file fs filepath c).1 filepath =
      .obj [("success", .bool true), ("content", .str c),
            ("size", .num (c.length : Int))] := by
  have h2 := create_then_read fs filepath c h
  rwa [univNewlines_noCR c hcr] at h2

/-- Claim C7 witness: a concrete newline-bearing file in a subdirectory. -/
theorem C7_witness :
    hasCR "hello\nworld" = false ∧
    read_file (create_file fs0 "notes/a.txt" "hello\nworld").1
        "notes/a.txt" =
      .obj [("success", .bool true), ("content", .str "hello\nworld"),
            ("size", .num (("hello\nworld" : String).length : Int))] :=
  ⟨by decide,
   C7_roundtrip fs0 "notes/a.txt" "hello\nworld" (by decide) (by decide)⟩

/-- Claim C8 (counterexample): the size field of `read_file` is
`len(content)`, the character count, not the byte length: a one-character
two-byte UTF-8 file reports size 1 while its byte length is 2. -/
theorem C8_counterexample :
    getField (read_file (create_file fs0 "u.txt" "é").1 "u.txt") "size" =
      some (.num 1) ∧
    utf8Len "é" = 2 ∧
    (1 : Int) ≠ 2 :=
  ⟨rfl, by decide, by decide⟩

/-- Claim C8 (amended): reading an existing file returns a success envelope
with the full decoded text and its character count as size; reading an
absent path (or a directory) returns a failure envelope carrying an error
description. -/
theorem C8_read_contract (fs : FS) (filepath : String) :
    (∀ s, fs.files.lookup (resolveUnder filepath) = some s →
      read_file fs filepath =
        .obj [("success", .bool true), ("content", .str (univNewlines s)),
              ("size", .num ((univNewlines s).length : Int))]) ∧
    (fs.files.lookup (resolveUnder filepath) = none →
      getSuccess (read_file fs filepath) = some false ∧
      (getField (read_file fs filepath) "error").isSome = true) := by
  constructor
  · intro s hs
    simp [read_file, hs]
  · intro hn
    simp +decide [read_file, hn, getSuccess, getField, List.lookup]

/-- Claim C8 witness: a present non-ASCII file and an absent path on the
demo workspace. -/
theorem C8_witness :
    read_file fsDemo "u2.txt" =
      .obj [("success", .bool true),
            ("content", .str (univNewlines "héllo")),
            ("size", .num ((univNewlines "héllo").length : Int))] ∧
    (getSuccess (read_file fsDemo "missing.txt") = some false ∧
      (getField (read_file fsDemo "missing.txt") "error").isSome = true) :=
  ⟨(C8_read_contract fsDemo "u2.txt").1 "héllo" (by decide),
   (C8_read_contract fsDemo "missing.txt").2 (by decide)⟩

/-- Claim C9: when the child process completes within the timeout, the
envelope success field is true exactly when the exit code is 0, and the
envelope always carries the captured stdout, stderr and returncode. -/
theorem C9_exit_code (po : ProcOracle) (code cmd : String) (rc rc2 : Int)
    (out err out2 err2 : String)
    (hp : po ["python3", "-c", code] = ProcOutcome.completed rc out err)
    (hb : po ["bash", "-c", cmd] = ProcOutcome.completed rc2 out2 err2) :
    execute_python po code =
      .obj [("success", .bool (rc == 0)), ("stdout", .str out),
            ("stderr", .str err), ("returncode", .num rc)] ∧
    (getSuccess (execute_python po code) = some true ↔ rc = 0) ∧
    execute_bash po cmd =
      .obj [("success", .bool (rc2 == 0)), ("stdout", .str out2),
            ("stderr", .str err2), ("returncode", .num rc2)] ∧
    (getSuccess (execute_bash po cmd) = some true ↔ rc2 = 0) := by
  refine ⟨by simp [execute_python, hp], ?_,
    by simp [execute_bash, hb], ?_⟩
  · simp [execute_python, hp, getSuccess, getField, List.lookup]
  · simp [execute_bash, hb, getSuccess, getField, List.lookup]

/-- Claim C9 witness: a succeeding python command and a bash command that
exits 2 with captured stderr. -/
theorem C9_witness :
    execute_python completedOracle "print(1)" =
      .obj [("success", .bool ((0 : Int) == 0)), ("stdout", .str "1\n"),
            ("stderr", .str ""), ("returncode", .num 0)] ∧
    (getSuccess (execute_python completedOracle "print(1)") = some true ↔
      (0 : Int) = 0) ∧
    execute_bash completedOracle "ls /nope" =
      .obj [("success", .bool ((2 : Int) == 0)), ("stdout", .str ""),
            ("stderr",
             .str "ls: cannot access /nope: No such file or directory\n"),
            ("returncode", .num 2)] ∧
    (getSuccess (execute_bash completedOracle "ls /nope") = some true ↔
      (2 : Int) = 0) :=
  C9_exit_code completedOracle "print(1)" "ls /nope" 0 2 "1\n" ""
    "" "ls: cannot access /nope: No such file or directory\n"
    (by decide) (by decide)

/-- Claim C10: across any whole session, the transcript keeps the seeded
system message as its first element and contains exactly one system
message — the rollback can only ever pop a trailing user message. -/
theorem C10_system_message_invariant (po : ProcOracle)
    (turns : List (String × List CallResult)) :
    ((runSession po turns).1).head? = some systemMessage ∧
    ((runSession po turns).1).countP (fun m => m.role == "system") = 1 := by
  have h : InvT (runSession po turns).1 := by
    refine runTurns_inv po turns initialMessages fs0 ⟨rfl, ?_⟩
    intro m hm
    simp [initialMessages] at hm
  obtain ⟨hh, ht⟩ := h
  refine ⟨hh, ?_⟩
  cases hmsg : (runSession po turns).1 with
  | nil => rw [hmsg] at hh; simp at hh
  | cons a t =>
      rw [hmsg] at hh ht
      simp only [List.head?_cons, Option.some.injEq] at hh
      subst hh
      rw [List.countP_cons]
      have h0 : t.countP (fun m => m.role == "system") = 0 := by
        rw [List.countP_eq_zero]
        intro m hm
        have hne := ht m hm
        simpa using hne
      rw [h0]
      simp +decide [systemMessage]

end ChatScript
